import Mathlib

/-!
Verification of the solana-transaction-crawler crawl engine.

This file gives a shallow embedding, in Lean 4, of the core crawl logic of
`src/crawler.rs`, `src/filters/ix.rs`, `src/filters/tx.rs` and the parts of
its external crates that the crawler's control flow depends on
(`serde_json::Value::pointer`, the `retry` crate's fixed-delay combinator),
and proves or refutes the specified properties of that logic.

Modelling conventions:
  - Rust machine integers that only index or count become `Nat`.
  - Fallible Rust code becomes `Except String α`; an `Except.error` produced
    by an embedded function models a Rust `panic!`/`unwrap` abort (or a `?`
    early return, as noted at each definition).
  - The RPC client is external; it is modelled as an oracle function passed
    as an argument (one call per loop iteration for pagination, one result
    per signature for fetching).
  - `rayon`'s `par_iter().for_each` with a shared mutex map is modelled as a
    sequential fold producing the emitted (label, address) pairs, then an
    aggregation into an association-list map: any panic inside the loop
    aborts `run`, which the fold's error propagation models; for the
    non-panicking case the fold emits exactly the pairs the loop inserts.
-/

namespace Crawl

/-! ## serde_json values and JSON pointers

`Json` models `serde_json::Value`; numbers are collapsed to `Int` (the
crawler never inspects numeric values, it only ever asks whether a value is
a string). `Json.pointer` models `serde_json::Value::pointer`, including
token unescaping (`~1` → `/`, `~0` → `~`) and the array-index parse that
rejects a leading `+` and leading zeros. -/

inductive Json where
  | str (s : String)
  | num (n : Int)
  | bool (b : Bool)
  | null
  | arr (xs : List Json)
  | obj (fields : List (String × Json))

/-- Models `serde_json::Value::as_str`: `some` exactly on JSON strings. -/
def Json.asStr : Json → Option String
  | .str s => some s
  | _ => none

/-- Split a character list on `'/'` (the tail of the pointer, after its
leading slash has been removed). Mirrors Rust's `split('/')`, which always
yields at least one (possibly empty) token. -/
def splitSlash : List Char → List Char → List (List Char)
  | [], cur => [cur.reverse]
  | c :: rest, cur =>
    if c = '/' then cur.reverse :: splitSlash rest [] else splitSlash rest (c :: cur)

/-- Models the per-token unescaping `token.replace("~1", "/").replace("~0", "~")`
of `serde_json`'s pointer lookup (single left-to-right pass, which agrees
with the two sequential replaces on these non-overlapping patterns). -/
def unescapeTok : List Char → List Char
  | [] => []
  | '~' :: '1' :: rest => '/' :: unescapeTok rest
  | '~' :: '0' :: rest => '~' :: unescapeTok rest
  | c :: rest => c :: unescapeTok rest

/-- Digit-string to `Nat`, `none` when empty or any character is not a
digit. Helper for `parseIndex`. -/
def digitsToNat : List Char → Option Nat :=
  fun cs =>
    if cs ≠ [] ∧ cs.all Char.isDigit then
      some (cs.foldl (fun acc c => acc * 10 + (c.toNat - '0'.toNat)) 0)
    else none

/-- Models `serde_json`'s `parse_index`: rejects a leading `+` and a
leading zero (except the token "0" itself). -/
def parseIndex (tok : List Char) : Option Nat :=
  match tok with
  | [] => none
  | '+' :: _ => none
  | '0' :: rest => if rest = [] then some 0 else none
  | _ => digitsToNat tok

/-- Association lookup in a JSON object, mirroring `Map::get`. -/
def lookupKey : List (String × Json) → List Char → Option Json
  | [], _ => none
  | (k, v) :: rest, tok => if k.data = tok then some v else lookupKey rest tok

/-- Walk one pointer token list down a JSON value: objects are indexed by
(unescaped) key, arrays by parsed numeric index, everything else fails. -/
def pointerGo : Json → List (List Char) → Option Json
  | j, [] => some j
  | .obj fields, tok :: rest =>
    (lookupKey fields (unescapeTok tok)).bind (fun v => pointerGo v rest)
  | .arr xs, tok :: rest =>
    ((parseIndex (unescapeTok tok)).bind (fun i => xs.get? i)).bind
      (fun v => pointerGo v rest)
  | _, _ :: _ => none

/-- Models `serde_json::Value::pointer`: the empty pointer returns the whole
value, a pointer not starting with `/` resolves to nothing, otherwise the
slash-separated tokens are walked in order. -/
def Json.pointer (j : Json) (p : String) : Option Json :=
  match p.data with
  | [] => some j
  | '/' :: rest => pointerGo j (splitSlash rest [])
  | _ => none

/-! ## The transaction data model

These mirror the `solana-transaction-status` types the crawler consumes,
restricted to the fields the crawler reads. -/

/-- Models `UiCompiledInstruction` (raw, index-based form). -/
structure UiCompiledInstruction where
  program_id_index : Nat
  accounts : List Nat
  data : String

/-- Models `ParsedInstruction`: fully decoded, named field tree. -/
structure ParsedInstruction where
  program : String
  program_id : String
  parsed : Json

/-- Models `UiPartiallyDecodedInstruction`: positional account list plus an
opaque payload. -/
structure UiPartiallyDecodedInstruction where
  program_id : String
  accounts : List String
  data : String

/-- Models `UiParsedInstruction`: the two instruction shapes the crawler
handles uniformly. -/
inductive UiParsedInstruction where
  | parsed (ix : ParsedInstruction)
  | partiallyDecoded (ix : UiPartiallyDecodedInstruction)

/-- Models `UiInstruction` as it appears inside a JSON-encoded message. -/
inductive UiInstruction where
  | compiled (ix : UiCompiledInstruction)
  | parsed (ix : UiParsedInstruction)

/-- Models `ParsedAccount` (one entry of a parsed message's account keys). -/
structure ParsedAccount where
  pubkey : String
  signer : Bool
  writable : Bool

/-- Models `UiRawMessage`, restricted to the fields the crawler touches. -/
structure UiRawMessage where
  account_keys : List String
  instructions : List UiCompiledInstruction

/-- Models `UiParsedMessage`, restricted to the fields the crawler touches. -/
structure UiParsedMessage where
  account_keys : List ParsedAccount
  instructions : List UiInstruction

/-- Models `UiMessage`. -/
inductive UiMessage where
  | raw (msg : UiRawMessage)
  | parsed (msg : UiParsedMessage)

/-- Models `UiTransaction`. -/
structure UiTransaction where
  signatures : List String
  message : UiMessage

/-- Models `EncodedTransaction`; every non-`Json` encoding (LegacyBinary,
Binary, Accounts) is collapsed into `binary`, since the crawler treats them
all with the same wildcard panic arm. -/
inductive EncodedTransaction where
  | json (tx : UiTransaction)
  | binary (payload : String)

/-- Models `UiInnerInstructions`: one group of inner instructions attached
to the top-level instruction at `index`. -/
structure UiInnerInstructions where
  index : Nat
  instructions : List UiInstruction

/-- Models `UiTransactionStatusMeta`, restricted to the fields the crawler
reads; `err` carries the rendered error when present. -/
structure UiTransactionStatusMeta where
  err : Option String
  log_messages : Option (List String)
  inner_instructions : Option (List UiInnerInstructions)

/-- Models `EncodedTransactionWithStatusMeta`. -/
structure EncodedTransactionWithStatusMeta where
  transaction : EncodedTransaction
  meta : Option UiTransactionStatusMeta

/-- Models `EncodedConfirmedTransactionWithStatusMeta`. -/
structure EncodedConfirmedTransactionWithStatusMeta where
  slot : Nat
  transaction : EncodedTransactionWithStatusMeta

/-! ## Crawler configuration (crawler.rs lines 24-57)

Filters are trait objects holding a pure predicate, so they are modelled as
plain Lean predicates. The `client`, `address` and `concurrency_limit`
fields configure the RPC/IO layer, which enters the model as oracle
arguments instead. -/

/-- Models `IxAccount` (crawler.rs lines 28-46): an extraction rule; a
`some` index is a positional rule (`IxAccount::unparsed`), `none` is a
structured-field rule (`IxAccount::parsed`). -/
structure IxAccount where
  name : String
  index : Option Nat

/-- Models the filter/rule state of `Crawler` (crawler.rs lines 49-57). -/
structure Crawler where
  tx_filters : List (EncodedConfirmedTransactionWithStatusMeta → Bool)
  ix_filters : List (UiParsedInstruction → Bool)
  ix_or_filters : List (UiParsedInstruction → Bool)
  account_indices : List IxAccount

/-! ## Transaction filtering (crawler.rs lines 132-135) -/

/-- Models the transaction-filter stage of `Crawler::run`: keep a
transaction iff every registered transaction filter accepts it. -/
def filterTransactions
    (tx_filters : List (EncodedConfirmedTransactionWithStatusMeta → Bool))
    (transactions : List EncodedConfirmedTransactionWithStatusMeta) :
    List EncodedConfirmedTransactionWithStatusMeta :=
  transactions.filter (fun tx => tx_filters.all (fun f => f tx))

/-! ## Instruction flattening (crawler.rs lines 139-170)

Every `panic!` in this region becomes an `Except.error` carrying the panic
message; a panic inside the `par_iter` worker unwinds and aborts `run`. -/

/-- Models the per-instruction match arms
`UiInstruction::Parsed(ix) => ix, _ => panic!("not a parsed instruction")`. -/
def asParsedIx : UiInstruction → Except String UiParsedInstruction
  | .parsed ix => .ok ix
  | .compiled _ => .error "not a parsed instruction"

/-- Models the `.map(...).collect()` over a list of `UiInstruction`s, where
the closure panics on the first non-parsed instruction. -/
def mapAsParsed : List UiInstruction → Except String (List UiParsedInstruction)
  | [] => .ok []
  | ix :: rest =>
    match asParsedIx ix with
    | .error e => .error e
    | .ok p =>
      match mapAsParsed rest with
      | .error e => .error e
      | .ok ps => .ok (p :: ps)

/-- Models crawler.rs lines 140-155: decode the transaction's top-level
instruction list, panicking (`Except.error`) on a raw message, a non-JSON
encoding, or a non-parsed instruction. -/
def topInstructions (tx : EncodedConfirmedTransactionWithStatusMeta) :
    Except String (List UiParsedInstruction) :=
  match tx.transaction.transaction with
  | .json ui_tx =>
    match ui_tx.message with
    | .raw _ => .error "not a parsed message"
    | .parsed msg => mapAsParsed msg.instructions
  | .binary _ => .error "Not JSON encoded transaction"

/-- Models crawler.rs lines 157-170: every inner instruction of every inner
instruction group, in group order with intra-group order preserved
(`inner_instructions.iter().flat_map(|ix| &ix.instructions)`), each
required to be in parsed form. -/
def innerInstructionsOf (tx : EncodedConfirmedTransactionWithStatusMeta) :
    Except String (List UiParsedInstruction) :=
  match tx.transaction.meta with
  | some meta =>
    match meta.inner_instructions with
    | some groups => mapAsParsed ((groups.map (fun g => g.instructions)).flatten)
    | none => .ok []
  | none => .ok []

/-- Models crawler.rs lines 140-170 as a whole: the flat instruction
sequence a worker iterates over — every top-level instruction followed by
every inner instruction, all exposed as the same `UiParsedInstruction`
type, so nothing downstream can tell a nested instruction from a top-level
one. -/
def collectInstructions (tx : EncodedConfirmedTransactionWithStatusMeta) :
    Except String (List UiParsedInstruction) :=
  match topInstructions tx with
  | .error e => .error e
  | .ok tops =>
    match innerInstructionsOf tx with
    | .error e => .error e
    | .ok inner => .ok (tops ++ inner)

/-! ## Instruction filtering (crawler.rs lines 172-182) -/

/-- Models the instruction-filter stage of `Crawler::run`: the conjunctive
`ix_filters` group, then the disjunctive `ix_or_filters` group, where an
empty disjunctive group is short-circuited by the `or_filters` boolean
exactly as in the source. -/
def filterInstructions
    (ix_filters ix_or_filters : List (UiParsedInstruction → Bool))
    (instructions : List UiParsedInstruction) : List UiParsedInstruction :=
  let or_filters := ix_or_filters.isEmpty
  (instructions.filter (fun ix => ix_filters.all (fun f => f ix))).filter
    (fun ix => or_filters || ix_or_filters.any (fun f => f ix))

/-! ## Account extraction (crawler.rs lines 185-217)

The shared `ix_accounts` mutex map is modelled by first computing the
(label, address) pairs each loop iteration inserts — with `Except.error`
modelling the two possible panics (`ix.accounts[index]` out of bounds on
line 190, `address.as_str().unwrap()` on line 206) — and then aggregating
the pairs into the map. -/

/-- Models `str::trim_matches('\\')` (line 206): remove every leading and
every trailing backslash. -/
def trimBackslashes (s : String) : String :=
  String.mk (((s.data.dropWhile (fun c => c = '\\')).reverse.dropWhile
    (fun c => c = '\\')).reverse)

/-- Models one inner-loop iteration of crawler.rs lines 187-215: the pairs
one extraction rule inserts for one instruction.
  - Positional rule on a partially decoded instruction: `ix.accounts[index]`,
    which panics when the index is out of bounds (line 190).
  - Structured rule on a parsed instruction: pointer lookup under `/info/`,
    a missing path inserts nothing, a present non-string value panics at
    `as_str().unwrap()` (line 206), a string is trimmed of backslashes.
  - A rule applied to the other shape inserts nothing. -/
def extractIxAccount (a : IxAccount) (ix : UiParsedInstruction) :
    Except String (List (String × String)) :=
  match ix with
  | .partiallyDecoded pix =>
    match a.index with
    | some index =>
      match pix.accounts.get? index with
      | some address => .ok [(a.name, address)]
      | none => .error "index out of bounds"
    | none => .ok []
  | .parsed pix =>
    match a.index with
    | none =>
      match Json.pointer pix.parsed ("/info/" ++ a.name) with
      | some address =>
        match address.asStr with
        | some s => .ok [(a.name, trimBackslashes s)]
        | none => .error "called Option::unwrap on a None value"
      | none => .ok []
    | some _ => .ok []

/-- Models the inner `for a in self.account_indices` loop (lines 186-216)
for one instruction: rules applied in order, the emitted pairs concatenated,
the first panic aborting. -/
def extractRules : List IxAccount → UiParsedInstruction →
    Except String (List (String × String))
  | [], _ => .ok []
  | a :: rest, ix =>
    match extractIxAccount a ix with
    | .error e => .error e
    | .ok ps =>
      match extractRules rest ix with
      | .error e => .error e
      | .ok more => .ok (ps ++ more)

/-- Models the outer `for ix in filtered_instructions` loop (lines 185-217):
instructions processed in order, pairs concatenated, first panic aborts. -/
def extractAccounts (rules : List IxAccount) :
    List UiParsedInstruction → Except String (List (String × String))
  | [] => .ok []
  | ix :: rest =>
    match extractRules rules ix with
    | .error e => .error e
    | .ok ps =>
      match extractAccounts rules rest with
      | .error e => .error e
      | .ok more => .ok (ps ++ more)

/-! ## Result aggregation (crawler.rs lines 137, 191-196, 204-211, 220) -/

/-- The crawl result `HashMap<String, HashSet<String>>`, modelled as an
association list from label to a duplicate-free list of addresses. -/
def CrawledAccounts : Type := List (String × List String)

/-- Insert one (label, address) pair: models
`ix_accounts.entry(name).or_insert_with(HashSet::new).insert(address)`. -/
def insertAddress : CrawledAccounts → String → String → CrawledAccounts
  | [], label, addr => [(label, [addr])]
  | (l, addrs) :: rest, label, addr =>
    if l = label then
      (l, if addr ∈ addrs then addrs else addrs ++ [addr]) :: rest
    else (l, addrs) :: insertAddress rest label addr

/-- Fold the emitted pairs into the shared map. -/
def aggregate (pairs : List (String × String)) : CrawledAccounts :=
  pairs.foldl (fun m p => insertAddress m p.1 p.2) []

/-! ## The extraction pipeline of `Crawler::run` (crawler.rs lines 127-223)

`Crawler.run` below receives the already fetched transactions (signature
pagination and fetching are modelled separately, as they talk to the RPC
oracle) and performs the pipeline of lines 132-222: transaction filtering,
per-transaction flattening, instruction filtering, account extraction and
aggregation. An `Except.error` models a worker panic aborting `run`. -/

/-- One `par_iter` worker body (lines 139-218) for one transaction. -/
def processTx (c : Crawler) (tx : EncodedConfirmedTransactionWithStatusMeta) :
    Except String (List (String × String)) :=
  match collectInstructions tx with
  | .error e => .error e
  | .ok ixs =>
    extractAccounts c.account_indices
      (filterInstructions c.ix_filters c.ix_or_filters ixs)

/-- All workers, in transaction order; a panic in any worker aborts. -/
def processAll (c : Crawler) :
    List EncodedConfirmedTransactionWithStatusMeta →
    Except String (List (String × String))
  | [] => .ok []
  | tx :: rest =>
    match processTx c tx with
    | .error e => .error e
    | .ok ps =>
      match processAll c rest with
      | .error e => .error e
      | .ok more => .ok (ps ++ more)

/-- Models `Crawler::run` from the point where the transactions have been
fetched: filter transactions, run the extraction workers, aggregate. -/
def Crawler.run (c : Crawler)
    (transactions : List EncodedConfirmedTransactionWithStatusMeta) :
    Except String CrawledAccounts :=
  (processAll c (filterTransactions c.tx_filters transactions)).map aggregate

/-! ## Signature pagination (crawler.rs lines 351-412)

`Crawler::get_all_signatures_for_id` loops over
`get_signatures_for_address_with_config` calls. The RPC client is the
oracle `gw : Nat → Option String → List String`, giving the page returned
by the k-th call (0-based) when made with cursor `before`; indexing by call
number lets the oracle model backend inconsistency (the same cursor
answered differently across calls). Signatures are their strings; the
`Signature::from_str` parses on lines 380-381 and 405-409 are modelled as
always succeeding (signature parse failure is an orthogonal abort path no
claim touches). The loop is given explicit fuel; `none` means the fuel ran
out before the source loop would have terminated, so every theorem below
supplies enough fuel for the behaviour it states. -/

/-- The loop body of `get_all_signatures_for_id` (lines 361-403), one
constructor case per source branch:
  - `sigs.last()` on an empty page breaks out of the loop (line 377);
  - a page of exactly 1000 appends all, sets the cursor to the oldest
    (last) signature returned, resets the retry counter, and continues;
  - the `0 =>` arm retries the same cursor up to 10 times (lines 390-397);
  - any other length appends all and breaks. -/
def paginateLoop (gw : Nat → Option String → List String) :
    Nat → Nat → Option String → List String → Nat → Option (List String)
  | 0, _, _, _, _ => none
  | fuel + 1, k, before, acc, retries =>
    match (gw k before).getLast? with
    | none => some acc
    | some last =>
      if (gw k before).length = 1000 then
        paginateLoop gw fuel (k + 1) (some last) (acc ++ gw k before) 0
      else if (gw k before).length = 0 then
        if retries < 10 then paginateLoop gw fuel (k + 1) before acc (retries + 1)
        else some acc
      else some (acc ++ gw k before)

/-- Models `Crawler::get_all_signatures_for_id`: start with no cursor, an
empty accumulator and a zero retry counter. -/
def get_all_signatures_for_id (gw : Nat → Option String → List String)
    (fuel : Nat) : Option (List String) :=
  paginateLoop gw fuel 0 none [] 0

/-- An honest gateway for the signature history `h` (newest first): each
successive call is answered with the next 1000-signature chunk of `h`,
which is what a consistent backend serves to the strictly-advancing cursor
of the walk; once `h` is exhausted it answers with empty pages. -/
def honestGw (h : List String) : Nat → Option String → List String :=
  fun k _ => (h.drop (1000 * k)).take 1000

/-- A gateway with one premature empty page (a backend gap): the first call
returns an empty page although the history still holds the signature "s",
which every later call serves. -/
def gwPrematureEmpty : Nat → Option String → List String :=
  fun k _ => if k = 0 then [] else ["s"]

/-- A gateway whose history is empty: every page is empty. -/
def gwAlwaysEmpty : Nat → Option String → List String :=
  fun _ _ => []

/-! ## Transaction fetching (crawler.rs lines 414-448)

`get_transactions_from_signatures` spawns one `get_transaction` task per
signature (bounded by the semaphore) and awaits them in spawn order,
pushing successful results and collecting errors into an unused `errors`
vector. The per-signature task outcome is the oracle
`fetch : String → Except String Tx`. -/

/-- The await loop of lines 436-443: successes pushed in order, failures
dropped (their errors are only accumulated into the dead `errors` vec). -/
def collectFetched (fetch : String → Except String EncodedConfirmedTransactionWithStatusMeta) :
    List String → List EncodedConfirmedTransactionWithStatusMeta
  | [] => []
  | s :: rest =>
    match fetch s with
    | .ok tx => tx :: collectFetched fetch rest
    | .error _ => collectFetched fetch rest

/-- Models `Crawler::get_transactions_from_signatures`: always returns
`Ok(transactions)`, independently of how many fetches failed. -/
def get_transactions_from_signatures
    (fetch : String → Except String EncodedConfirmedTransactionWithStatusMeta)
    (signatures : List String) :
    Except String (List EncodedConfirmedTransactionWithStatusMeta) :=
  .ok (collectFetched fetch signatures)

/-! ## Per-fetch retry (crawler.rs lines 451-463)

`get_transaction` wraps the RPC call in the `retry` crate's combinator
`retry(Fixed::from_millis(500).take(10), op)`: the delay iterator yields
ten 500ms delays; the operation runs once, and after each failure one more
delay is taken (sleeping that long) before the next attempt, until the
iterator is exhausted. `op k` is the outcome of the k-th attempt (0-based).
The result records, besides the final outcome, the total number of
attempts made and the total milliseconds slept. -/

/-- Models `retry::retry` with an explicit list of remaining delays. -/
def retryWithDelays (op : Nat → Except String α) :
    List Nat → Nat → Nat → Except String α × Nat × Nat
  | delays, tries, slept =>
    match op tries, delays with
    | .ok v, _ => (.ok v, tries + 1, slept)
    | .error e, [] => (.error e, tries + 1, slept)
    | .error _, d :: rest => retryWithDelays op rest (tries + 1) (slept + d)

/-- Models `get_transaction` (lines 451-463): the fixed-delay policy
`Fixed::from_millis(500).take(10)` around one signature's fetch. -/
def get_transaction (op : Nat → Except String α) :
    Except String α × Nat × Nat :=
  retryWithDelays op (List.replicate 10 500) 0 0

/-! ## Concrete instances used to witness and refute particular claims -/

/-- A gateway answering every call with one full page of 1000 identical
signatures (only its length matters where it is used). -/
def gwFullPage : Nat → Option String → List String :=
  fun _ _ => List.replicate 1000 "x"

/-- A positional extraction rule reading account index 5. -/
def mintAtFive : IxAccount := ⟨"mint", some 5⟩

/-- A partially decoded instruction carrying only two accounts — fewer than
`mintAtFive` expects. -/
def twoAccountIx : UiPartiallyDecodedInstruction :=
  ⟨"progId111", ["acct0", "acct1"], "dat"⟩

/-- A crawler with no filters and the single positional rule `mintAtFive`. -/
def oobCrawler : Crawler := ⟨[], [], [], [mintAtFive]⟩

/-- A crawler with no filters and no extraction rules. -/
def plainCrawler : Crawler := ⟨[], [], [], []⟩

/-- A JSON-encoded transaction whose single instruction is the partially
decoded `twoAccountIx`; no meta. -/
def oobTx : EncodedConfirmedTransactionWithStatusMeta :=
  ⟨1, ⟨.json ⟨["sig0"],
    .parsed ⟨[], [.parsed (.partiallyDecoded twoAccountIx)]⟩⟩, none⟩⟩

/-- A JSON-encoded transaction whose message is in raw (non-parsed) form:
the shape `Crawler::run` cannot interpret. -/
def rawMsgTx : EncodedConfirmedTransactionWithStatusMeta :=
  ⟨2, ⟨.json ⟨["sig1"], .raw ⟨["key0"], [⟨0, [0], "zz"⟩]⟩⟩, none⟩⟩

/-- A parsed instruction whose `/info/mint` field holds a JSON number, not
a string. -/
def numMintIx : ParsedInstruction :=
  ⟨"spl-token", "TokenProg1", Json.obj [("info", Json.obj [("mint", Json.num 5)])]⟩

/-- A structured-field extraction rule for the label "mint". -/
def mintByName : IxAccount := ⟨"mint", none⟩

/-! ## Theorems -/

/-- Claim C5: a transaction survives the transaction-filter stage iff every
registered transaction filter accepts it; an instruction survives iff every
filter of the required group accepts it and (the alternative group is empty
or some filter of the alternative group accepts it); in particular an empty
alternative group accepts every instruction that passed the required
group. -/
theorem c5_filter_composition :
    (∀ (tx_filters : List (EncodedConfirmedTransactionWithStatusMeta → Bool))
       (transactions : List EncodedConfirmedTransactionWithStatusMeta)
       (tx : EncodedConfirmedTransactionWithStatusMeta),
      tx ∈ filterTransactions tx_filters transactions ↔
        tx ∈ transactions ∧ ∀ f ∈ tx_filters, f tx = true)
  ∧ (∀ (req alt : List (UiParsedInstruction → Bool))
       (ixs : List UiParsedInstruction) (ix : UiParsedInstruction),
      ix ∈ filterInstructions req alt ixs ↔
        ix ∈ ixs ∧ (∀ f ∈ req, f ix = true) ∧
          (alt = [] ∨ ∃ f ∈ alt, f ix = true)) := by
  constructor
  · intro tx_filters transactions tx
    simp [filterTransactions, List.mem_filter, List.all_eq_true]
  · intro req alt ixs ix
    simp only [filterInstructions, List.mem_filter, List.all_eq_true,
      List.any_eq_true, Bool.or_eq_true, List.isEmpty_iff, and_assoc]

/-- The await loop of `get_transactions_from_signatures` keeps exactly the
successful fetch outcomes, in order. -/
theorem collectFetched_eq_filterMap
    (fetch : String → Except String EncodedConfirmedTransactionWithStatusMeta)
    (signatures : List String) :
    collectFetched fetch signatures =
      signatures.filterMap (fun s => (fetch s).toOption) := by
  induction signatures with
  | nil => rfl
  | cons s rest ih =>
    cases h : fetch s <;>
      simp [collectFetched, h, List.filterMap_cons, ih, Except.toOption]

/-- Claim C7: fetching is lossy but non-fatal per signature — the batch
always returns `Ok`, its record list is exactly the sequence of successful
fetches (so every signature whose fetch succeeded contributes a record, in
order), and a signature whose fetch failed is simply absent. -/
theorem c7_fetch_lossy_non_fatal
    (fetch : String → Except String EncodedConfirmedTransactionWithStatusMeta)
    (signatures : List String) :
    get_transactions_from_signatures fetch signatures =
      .ok (signatures.filterMap (fun s => (fetch s).toOption)) := by
  rw [get_transactions_from_signatures, collectFetched_eq_filterMap]

/-- A successful attempt stops the retry combinator at once. -/
theorem retryWithDelays_step_ok {α : Type} (op : Nat → Except String α)
    (delays : List Nat) (tries slept : Nat) (v : α) (h : op tries = .ok v) :
    retryWithDelays op delays tries slept = (.ok v, tries + 1, slept) := by
  unfold retryWithDelays
  rw [h]

/-- A failed attempt with no delays left stops the retry combinator. -/
theorem retryWithDelays_step_exhausted {α : Type} (op : Nat → Except String α)
    (tries slept : Nat) (e : String) (h : op tries = .error e) :
    retryWithDelays op [] tries slept = (.error e, tries + 1, slept) := by
  unfold retryWithDelays
  rw [h]

/-- A failed attempt takes the next delay, sleeps it, and tries again. -/
theorem retryWithDelays_step_error {α : Type} (op : Nat → Except String α)
    (d : Nat) (rest : List Nat) (tries slept : Nat) (e : String)
    (h : op tries = .error e) :
    retryWithDelays op (d :: rest) tries slept =
      retryWithDelays op rest (tries + 1) (slept + d) := by
  conv_lhs => unfold retryWithDelays
  rw [h]

/-- The fixed-delay retry combinator over `n` delays of 500ms: at least one
and at most `n + 1` attempts happen, and the total sleep is exactly 500ms
per failure that was followed by another attempt. -/
theorem retryWithDelays_fixed {α : Type} (op : Nat → Except String α) :
    ∀ (n tries slept : Nat),
      tries + 1 ≤ (retryWithDelays op (List.replicate n 500) tries slept).2.1 ∧
      (retryWithDelays op (List.replicate n 500) tries slept).2.1 ≤ tries + n + 1 ∧
      (retryWithDelays op (List.replicate n 500) tries slept).2.2 =
        slept + ((retryWithDelays op (List.replicate n 500) tries slept).2.1
          - tries - 1) * 500 := by
  intro n
  induction n with
  | zero =>
    intro tries slept
    cases h : op tries with
    | ok v => rw [List.replicate, retryWithDelays_step_ok op _ _ _ _ h]; simp
    | error e => rw [List.replicate, retryWithDelays_step_exhausted op _ _ _ h]; simp
  | succ m ih =>
    intro tries slept
    cases h : op tries with
    | ok v => rw [retryWithDelays_step_ok op _ _ _ _ h]; simp
    | error e =>
      rw [List.replicate_succ, retryWithDelays_step_error op _ _ _ _ _ h]
      have hm := ih (tries + 1) (slept + 500)
      omega

/-- Claim C8 (amended): one signature's fetch makes at most 11 attempts —
the initial attempt plus up to 10 retries, one per delay yielded by
`Fixed::from_millis(500).take(10)` — and every retry is preceded by a fixed
500ms sleep, so the total sleep equals (attempts − 1) · 500ms. -/
theorem c8_retry_policy {α : Type} (op : Nat → Except String α) :
    (get_transaction op).2.1 ≤ 11 ∧
    (get_transaction op).2.2 = ((get_transaction op).2.1 - 1) * 500 := by
  have h := retryWithDelays_fixed op 10 0 0
  rw [get_transaction]
  exact ⟨h.2.1, by omega⟩

/-- Claim C8, counterexample to the stated bound: when every attempt fails,
the fetch performs 11 attempts, exceeding the claimed maximum of 10. -/
theorem c8_attempts_counterexample :
    (get_transaction (fun _ => (Except.error "e" : Except String Unit))).2.1 = 11 ∧
    ¬ ((get_transaction (fun _ => (Except.error "e" : Except String Unit))).2.1 ≤ 10) :=
  ⟨rfl, by decide⟩

/-- Claim C6: extraction rules never apply across instruction shapes — a
positional rule on a parsed (structured) instruction yields no pairs, a
structured-field rule on a partially decoded (positional) instruction
yields no pairs, and a structured-field rule whose `/info/...` path is
absent from the field tree yields no pairs; none of these is an error. -/
theorem c6_shape_isolation :
    (∀ (a : IxAccount) (pix : ParsedInstruction) (i : Nat), a.index = some i →
      extractIxAccount a (.parsed pix) = .ok [])
  ∧ (∀ (a : IxAccount) (pix : UiPartiallyDecodedInstruction), a.index = none →
      extractIxAccount a (.partiallyDecoded pix) = .ok [])
  ∧ (∀ (a : IxAccount) (pix : ParsedInstruction), a.index = none →
      Json.pointer pix.parsed ("/info/" ++ a.name) = none →
      extractIxAccount a (.parsed pix) = .ok []) := by
  refine ⟨?_, ?_, ?_⟩ <;> intros <;> simp_all [extractIxAccount]

/-- Claim C6, witnessed on concrete instructions: a positional rule against
a parsed instruction, a named rule against a partially decoded instruction,
and a named rule whose path is missing, each yield zero pairs. -/
theorem c6_shape_isolation_witness :
    extractIxAccount ⟨"mint", some 0⟩ (.parsed numMintIx) = .ok [] ∧
    extractIxAccount mintByName (.partiallyDecoded twoAccountIx) = .ok [] ∧
    extractIxAccount ⟨"owner", none⟩ (.parsed numMintIx) = .ok [] :=
  ⟨c6_shape_isolation.1 ⟨"mint", some 0⟩ numMintIx 0 rfl,
   c6_shape_isolation.2.1 mintByName twoAccountIx rfl,
   c6_shape_isolation.2.2 ⟨"owner", none⟩ numMintIx rfl (by rfl)⟩

/-- The head of `dropWhile p l`, when present, fails `p`. -/
theorem head?_dropWhile_false {α : Type} (p : α → Bool) :
    ∀ (l : List α) (a : α), (l.dropWhile p).head? = some a → p a = false := by
  intro l
  induction l with
  | nil => intro a h; simp [List.dropWhile] at h
  | cons x xs ih =>
    intro a h
    by_cases hx : p x
    · exact ih a (by simpa [List.dropWhile, hx] using h)
    · rw [List.dropWhile_cons_of_neg (by simpa using hx)] at h
      simp only [List.head?_cons, Option.some.injEq] at h
      subst h
      simpa using hx

/-- `takeWhile (· = c)` is a replicate of `c`. -/
theorem takeWhile_eq_replicate (c : Char) (l : List Char) :
    l.takeWhile (fun x => x = c) =
      List.replicate (l.takeWhile (fun x => x = c)).length c := by
  rw [List.eq_replicate_iff]
  refine ⟨rfl, ?_⟩
  intro b hb
  have := List.mem_takeWhile_imp hb
  simpa using this

/-- The head of a nonempty list is unchanged by appending on the right. -/
theorem head?_append_left {α : Type} (l r : List α) (h : l ≠ []) :
    (l ++ r).head? = l.head? := by
  cases l with
  | nil => exact absurd rfl h
  | cons x xs => rfl

/-- Dropping the leading run of `c` splits a list as that run followed by a
remainder that does not start with `c`. -/
theorem dropWhile_run_decomposition (c : Char) (l : List Char) :
    ∃ m : Nat, l = List.replicate m c ++ l.dropWhile (fun x => x = c) ∧
      (l.dropWhile (fun x => x = c)).head? ≠ some c := by
  refine ⟨(l.takeWhile (fun x => x = c)).length, ?_, ?_⟩
  · conv_lhs => rw [← List.takeWhile_append_dropWhile (fun x => x = c) l]
    rw [← takeWhile_eq_replicate]
  · intro hhead
    have := head?_dropWhile_false (fun x => x = c) l c hhead
    simp at this

/-- Claim C10: a structured-field rule whose `/info/...` path resolves to a
value that is not a JSON string panics at `as_str().unwrap()` (modelled by
`Except.error`) instead of skipping; and the trimming applied to extracted
strings removes exactly the leading and trailing runs of backslashes — the
original string is a backslash run, then the trimmed core (which neither
starts nor ends with a backslash), then a backslash run. -/
theorem c10_nonstring_panic_and_trim :
    (∀ (a : IxAccount) (pix : ParsedInstruction) (v : Json), a.index = none →
      Json.pointer pix.parsed ("/info/" ++ a.name) = some v →
      v.asStr = none →
      extractIxAccount a (.parsed pix) =
        .error "called Option::unwrap on a None value")
  ∧ (∀ s : String, ∃ m n : Nat,
      s.data = List.replicate m '\\' ++ (trimBackslashes s).data
        ++ List.replicate n '\\' ∧
      (trimBackslashes s).data.head? ≠ some '\\' ∧
      (trimBackslashes s).data.getLast? ≠ some '\\') := by
  constructor
  · intro a pix v h1 h2 h3
    simp_all [extractIxAccount]
  · intro s
    obtain ⟨m, hm, hmh⟩ := dropWhile_run_decomposition '\\' s.data
    obtain ⟨n, hn, hnh⟩ :=
      dropWhile_run_decomposition '\\' (s.data.dropWhile (fun x => x = '\\')).reverse
    have htrim : (trimBackslashes s).data =
        ((s.data.dropWhile (fun x => x = '\\')).reverse.dropWhile
          (fun x => x = '\\')).reverse := rfl
    have hd1 : s.data.dropWhile (fun x => x = '\\') =
        (trimBackslashes s).data ++ List.replicate n '\\' := by
      have := congrArg List.reverse hn
      rw [List.reverse_reverse, List.reverse_append, List.reverse_replicate] at this
      rw [this, htrim]
    refine ⟨m, n, ?_, ?_, ?_⟩
    · rw [hm, hd1, List.append_assoc]
    · intro hhead
      apply hmh
      rw [hd1]
      cases hcore : (trimBackslashes s).data with
      | nil => rw [hcore] at hhead; simp at hhead
      | cons x xs =>
        rw [head?_append_left _ _ (by simp), ← hcore, hhead]
    · intro hlast
      apply hnh
      rw [htrim, List.getLast?_reverse] at hlast
      exact hlast

/-- Claim C10, witnessed: the concrete parsed instruction whose
`/info/mint` value is the number 5 panics the extraction, and the concrete
string "\\ab\\\\" decomposes around its trimmed core "ab". -/
theorem c10_witness :
    extractIxAccount mintByName (.parsed numMintIx) =
      .error "called Option::unwrap on a None value" ∧
    (∃ m n : Nat,
      "\\ab\\\\".data = List.replicate m '\\' ++ (trimBackslashes "\\ab\\\\").data
        ++ List.replicate n '\\' ∧
      (trimBackslashes "\\ab\\\\").data.head? ≠ some '\\' ∧
      (trimBackslashes "\\ab\\\\").data.getLast? ≠ some '\\') :=
  ⟨c10_nonstring_panic_and_trim.1 mintByName numMintIx (Json.num 5) rfl (by rfl) rfl,
   c10_nonstring_panic_and_trim.2 "\\ab\\\\"⟩

/-- If the rule loop finished without panicking, every rule extracted
without panicking from that instruction. -/
theorem extractRules_ok_mem {rules : List IxAccount} {ix : UiParsedInstruction}
    {ps : List (String × String)} (h : extractRules rules ix = .ok ps) :
    ∀ a ∈ rules, ∃ qs, extractIxAccount a ix = .ok qs := by
  induction rules generalizing ps with
  | nil => intro a ha; exact absurd ha (List.not_mem_nil a)
  | cons b rest ih =>
    intro a ha
    cases hb : extractIxAccount b ix with
    | error e => rw [extractRules, hb] at h; exact Except.noConfusion h
    | ok qs =>
      cases hr : extractRules rest ix with
      | error e => rw [extractRules, hb, hr] at h; exact Except.noConfusion h
      | ok more =>
        rcases List.mem_cons.mp ha with rfl | ha2
        · exact ⟨qs, hb⟩
        · exact ih hr a ha2

/-- If the instruction loop finished without panicking, every instruction's
rule loop finished without panicking. -/
theorem extractAccounts_ok_mem {rules : List IxAccount}
    {ixs : List UiParsedInstruction} {ps : List (String × String)}
    (h : extractAccounts rules ixs = .ok ps) :
    ∀ ix ∈ ixs, ∃ qs, extractRules rules ix = .ok qs := by
  induction ixs generalizing ps with
  | nil => intro ix hix; exact absurd hix (List.not_mem_nil ix)
  | cons jx rest ih =>
    intro ix hix
    cases hj : extractRules rules jx with
    | error e => rw [extractAccounts, hj] at h; exact Except.noConfusion h
    | ok qs =>
      cases hr : extractAccounts rules rest with
      | error e => rw [extractAccounts, hj, hr] at h; exact Except.noConfusion h
      | ok more =>
        rcases List.mem_cons.mp hix with rfl | hix2
        · exact ⟨qs, hj⟩
        · exact ih hr ix hix2

/-- If no worker panicked, every filtered transaction's worker body
finished without panicking. -/
theorem processAll_ok_mem {c : Crawler}
    {txs : List EncodedConfirmedTransactionWithStatusMeta}
    {ps : List (String × String)} (h : processAll c txs = .ok ps) :
    ∀ tx ∈ txs, ∃ qs, processTx c tx = .ok qs := by
  induction txs generalizing ps with
  | nil => intro tx htx; exact absurd htx (List.not_mem_nil tx)
  | cons ux rest ih =>
    intro tx htx
    cases hu : processTx c ux with
    | error e => rw [processAll, hu] at h; exact Except.noConfusion h
    | ok qs =>
      cases hr : processAll c rest with
      | error e => rw [processAll, hu, hr] at h; exact Except.noConfusion h
      | ok more =>
        rcases List.mem_cons.mp htx with rfl | htx2
        · exact ⟨qs, hu⟩
        · exact ih hr tx htx2

/-- Claim C3 (amended): a positional rule whose fixed index is out of
bounds for some surviving partially decoded instruction makes the whole
crawl abort — `ix.accounts[index]` panics, the panic is not scoped to the
instruction, and `run` yields no result at all. -/
theorem c3_oob_aborts (c : Crawler)
    (txs : List EncodedConfirmedTransactionWithStatusMeta)
    (tx : EncodedConfirmedTransactionWithStatusMeta)
    (ixs : List UiParsedInstruction) (pix : UiPartiallyDecodedInstruction)
    (a : IxAccount) (i : Nat)
    (htx : tx ∈ filterTransactions c.tx_filters txs)
    (hcol : collectInstructions tx = .ok ixs)
    (hix : UiParsedInstruction.partiallyDecoded pix ∈
      filterInstructions c.ix_filters c.ix_or_filters ixs)
    (ha : a ∈ c.account_indices) (hi : a.index = some i)
    (hoob : pix.accounts.length ≤ i) :
    ∃ e, Crawler.run c txs = .error e := by
  cases hrun : processAll c (filterTransactions c.tx_filters txs) with
  | error e => exact ⟨e, by simp [Crawler.run, hrun, Except.map]⟩
  | ok ps =>
    exfalso
    obtain ⟨qs, hq⟩ := processAll_ok_mem hrun tx htx
    rw [processTx, hcol] at hq
    obtain ⟨rs, hr⟩ := extractAccounts_ok_mem hq _ hix
    obtain ⟨us, hu⟩ := extractRules_ok_mem hr a ha
    have hnone : pix.accounts[i]? = none := List.getElem?_eq_none hoob
    rw [extractIxAccount] at hu
    simp [hi, hnone] at hu

/-- Claim C3, counterexample to the claimed silent skip: with a single
no-filter crawler whose one positional rule reads index 5, a transaction
whose instruction carries only two accounts makes `run` abort with the
out-of-bounds panic instead of skipping the instruction. -/
theorem c3_oob_counterexample :
    Crawler.run oobCrawler [oobTx] = .error "index out of bounds" := rfl

/-- Claim C3 (amended), witnessed on the concrete out-of-bounds crawl. -/
theorem c3_oob_aborts_witness :
    ∃ e, Crawler.run oobCrawler [oobTx] = .error e :=
  c3_oob_aborts oobCrawler [oobTx] oobTx
    [.partiallyDecoded twoAccountIx] twoAccountIx mintAtFive 5
    (by simp [filterTransactions, oobCrawler, oobTx]) rfl
    (by simp [filterInstructions, oobCrawler]) (by simp [oobCrawler]) rfl (by decide)

/-- Claim C4 (amended): a transaction whose message encoding cannot be
interpreted in the expected parsed-JSON form panics its worker, and the
panic aborts the whole `run` — the transaction is not skipped and the
crawl does not continue. -/
theorem c4_decode_aborts (c : Crawler)
    (txs : List EncodedConfirmedTransactionWithStatusMeta)
    (tx : EncodedConfirmedTransactionWithStatusMeta) (e : String)
    (htx : tx ∈ filterTransactions c.tx_filters txs)
    (hdec : collectInstructions tx = .error e) :
    ∃ e2, Crawler.run c txs = .error e2 := by
  cases hrun : processAll c (filterTransactions c.tx_filters txs) with
  | error e2 => exact ⟨e2, by simp [Crawler.run, hrun, Except.map]⟩
  | ok ps =>
    exfalso
    obtain ⟨qs, hq⟩ := processAll_ok_mem hrun tx htx
    rw [processTx, hdec] at hq
    exact Except.noConfusion hq

/-- Claim C4, counterexample to the claimed per-transaction scoping: a raw
(non-parsed) message makes `run` abort with the decode panic instead of
dropping the transaction and continuing. -/
theorem c4_decode_counterexample :
    Crawler.run plainCrawler [rawMsgTx] = .error "not a parsed message" := rfl

/-- Claim C4 (amended), witnessed on the concrete raw-message crawl. -/
theorem c4_decode_aborts_witness :
    ∃ e2, Crawler.run plainCrawler [rawMsgTx] = .error e2 :=
  c4_decode_aborts plainCrawler [rawMsgTx] rawMsgTx "not a parsed message"
    (by simp [filterTransactions, plainCrawler, rawMsgTx]) rfl

/-- Decoding a list that is wholly in parsed form succeeds and returns
exactly the carried parsed instructions, in order. -/
theorem mapAsParsed_map_parsed (l : List UiParsedInstruction) :
    mapAsParsed (l.map UiInstruction.parsed) = .ok l := by
  induction l with
  | nil => rfl
  | cons x xs ih => rw [List.map_cons, mapAsParsed, ih]; rfl

/-- Claim C9: for a fetched transaction whose instructions are all in
parsed form, the flattener yields one flat sequence — every top-level
instruction, in order, followed by every inner instruction of every
inner-instruction group, group order and intra-group order preserved; a
transaction without inner-instruction groups contributes exactly its
top-level instructions; and the flat sequence's elements are first-class
instructions that downstream filtering treats uniformly, irrespective of
which side of the append they came from. -/
theorem c9_flattening :
    (∀ (slot : Nat) (sigs : List String) (keys : List ParsedAccount)
       (tops : List UiParsedInstruction) (err : Option String)
       (logs : Option (List String)) (groups : List UiInnerInstructions)
       (inners : List (List UiParsedInstruction)),
      groups.map (fun g => g.instructions) =
        inners.map (List.map UiInstruction.parsed) →
      collectInstructions
        ⟨slot, ⟨.json ⟨sigs, .parsed ⟨keys, tops.map UiInstruction.parsed⟩⟩,
          some ⟨err, logs, some groups⟩⟩⟩ = .ok (tops ++ inners.flatten))
  ∧ (∀ (slot : Nat) (sigs : List String) (keys : List ParsedAccount)
       (tops : List UiParsedInstruction),
      collectInstructions
        ⟨slot, ⟨.json ⟨sigs, .parsed ⟨keys, tops.map UiInstruction.parsed⟩⟩,
          none⟩⟩ = .ok tops)
  ∧ (∀ (req alt : List (UiParsedInstruction → Bool))
       (tops inner : List UiParsedInstruction),
      filterInstructions req alt (tops ++ inner) =
        filterInstructions req alt tops ++ filterInstructions req alt inner) := by
  refine ⟨?_, ?_, ?_⟩
  · intro slot sigs keys tops err logs groups inners hg
    rw [collectInstructions, topInstructions]
    simp only []
    rw [mapAsParsed_map_parsed, innerInstructionsOf]
    simp only [hg]
    rw [← List.map_flatten, mapAsParsed_map_parsed]
  · intro slot sigs keys tops
    rw [collectInstructions, topInstructions]
    simp only []
    rw [mapAsParsed_map_parsed, innerInstructionsOf]
    simp
  · intro req alt tops inner
    simp only [filterInstructions, List.filter_append]

/-- Claim C9, witnessed on a concrete transaction with one top-level and
one inner instruction. -/
theorem c9_flattening_witness :
    collectInstructions
      ⟨7, ⟨.json ⟨["sg"], .parsed ⟨[],
          [UiParsedInstruction.partiallyDecoded twoAccountIx].map
            UiInstruction.parsed⟩⟩,
        some ⟨none, none,
          some [⟨0, [UiInstruction.parsed (.parsed numMintIx)]⟩]⟩⟩⟩ =
      .ok ([UiParsedInstruction.partiallyDecoded twoAccountIx] ++
        [[UiParsedInstruction.parsed numMintIx]].flatten) :=
  c9_flattening.1 7 ["sg"] [] [.partiallyDecoded twoAccountIx] none none
    [⟨0, [UiInstruction.parsed (.parsed numMintIx)]⟩]
    [[.parsed numMintIx]] rfl

/-- One unfolding step of the pagination loop. -/
theorem paginateLoop_succ (gw : Nat → Option String → List String)
    (fuel k : Nat) (before : Option String) (acc : List String)
    (retries : Nat) :
    paginateLoop gw (fuel + 1) k before acc retries =
      match (gw k before).getLast? with
      | none => some acc
      | some last =>
        if (gw k before).length = 1000 then
          paginateLoop gw fuel (k + 1) (some last) (acc ++ gw k before) 0
        else if (gw k before).length = 0 then
          if retries < 10 then
            paginateLoop gw fuel (k + 1) before acc (retries + 1)
          else some acc
        else some (acc ++ gw k before) := rfl

/-- Claim C1: the value of the retry counter never influences the
pagination result — the `0 =>` retry arm is unreachable, because an empty
page already breaks out of the loop at `sigs.last()` — and on a gateway
whose first page is empty although the history still holds "s", the walk
concludes within a single iteration (so no retried request was ever made)
returning no signatures. -/
theorem c1_empty_page_terminates_without_retry :
    (∀ (gw : Nat → Option String → List String) (fuel k : Nat)
       (before : Option String) (acc : List String) (r r2 : Nat),
      paginateLoop gw fuel k before acc r = paginateLoop gw fuel k before acc r2)
  ∧ get_all_signatures_for_id gwPrematureEmpty 1 = some [] := by
  constructor
  · intro gw fuel k before acc r r2
    cases fuel with
    | zero => rfl
    | succ f =>
      rw [paginateLoop_succ, paginateLoop_succ]
      cases hgw : gw k before with
      | nil => simp
      | cons x xs =>
        rcases hL : (x :: xs).getLast? with _ | last
        · exact absurd (List.getLast?_eq_none_iff.mp hL) (by simp)
        · simp only [hL]
          by_cases hlen : (x :: xs).length = 1000
          · simp [hlen]
          · have h0 : ¬ (x :: xs).length = 0 := by simp
            simp [hlen, h0]
  · rfl

/-- The loop breaks with the accumulator when the page is empty. -/
theorem paginateLoop_stop_empty (gw : Nat → Option String → List String)
    (fuel k : Nat) (before : Option String) (acc : List String) (r : Nat)
    (hL : (gw k before).getLast? = none) :
    paginateLoop gw (fuel + 1) k before acc r = some acc := by
  rw [paginateLoop_succ, hL]

/-- The loop appends a full page, advances the cursor to its last
signature, resets the retry counter, and continues. -/
theorem paginateLoop_step_full (gw : Nat → Option String → List String)
    (fuel k : Nat) (before : Option String) (acc : List String) (r : Nat)
    (last : String) (hL : (gw k before).getLast? = some last)
    (hlen : (gw k before).length = 1000) :
    paginateLoop gw (fuel + 1) k before acc r =
      paginateLoop gw fuel (k + 1) (some last) (acc ++ gw k before) 0 := by
  rw [paginateLoop_succ, hL]
  exact if_pos hlen

/-- The loop appends a non-empty page shorter than 1000 and stops. -/
theorem paginateLoop_stop_short (gw : Nat → Option String → List String)
    (fuel k : Nat) (before : Option String) (acc : List String) (r : Nat)
    (last : String) (hL : (gw k before).getLast? = some last)
    (hlen : ¬ (gw k before).length = 1000)
    (h0 : ¬ (gw k before).length = 0) :
    paginateLoop gw (fuel + 1) k before acc r = some (acc ++ gw k before) := by
  rw [paginateLoop_succ, hL]
  exact (if_neg hlen).trans (if_neg h0)

/-- Pagination against an honest gateway: with the retry counter at zero,
enough fuel, and the remaining history served chunk by chunk, the loop
returns the accumulator followed by the whole remaining history. -/
theorem paginateLoop_honest (h : List String) :
    ∀ (fuel j : Nat) (before : Option String) (acc : List String),
      (h.drop (1000 * j)).length < 1000 * fuel →
      paginateLoop (honestGw h) fuel j before acc 0 =
        some (acc ++ h.drop (1000 * j)) := by
  intro fuel
  induction fuel with
  | zero => intro j before acc hlt; omega
  | succ f ih =>
    intro j before acc hlt
    have hgw : honestGw h j before = (h.drop (1000 * j)).take 1000 := rfl
    cases hr : h.drop (1000 * j) with
    | nil =>
      rw [hr] at hgw
      have hL : (honestGw h j before).getLast? = none := by rw [hgw]; rfl
      rw [paginateLoop_stop_empty _ _ _ _ _ _ hL, List.append_nil]
    | cons x xs =>
      rw [hr] at hgw
      by_cases hbig : 1000 ≤ (x :: xs).length
      · -- a full page: append it, advance the cursor, recurse
        have hlen : (honestGw h j before).length = 1000 := by
          rw [hgw, List.length_take]; omega
        have hne : honestGw h j before ≠ [] := by
          intro hc; rw [hc] at hlen; simp at hlen
        rcases hL : (honestGw h j before).getLast? with _ | last
        · exact absurd (List.getLast?_eq_none_iff.mp hL) hne
        · have hdd : h.drop (1000 * (j + 1)) = (h.drop (1000 * j)).drop 1000 := by
            rw [List.drop_drop, Nat.mul_succ]
          have hlt2 : (h.drop (1000 * (j + 1))).length < 1000 * f := by
            rw [hdd, hr, List.length_drop]
            rw [hr] at hlt
            omega
          rw [paginateLoop_step_full _ _ _ _ _ _ _ hL hlen,
            ih (j + 1) (some last) (acc ++ honestGw h j before) hlt2,
            hgw, hdd, hr, List.append_assoc, List.take_append_drop]
      · -- the short final page: append it and stop
        have hle : (x :: xs).length ≤ 1000 := by omega
        have htake : (x :: xs).take 1000 = x :: xs := List.take_of_length_le hle
        rw [htake] at hgw
        have hlen : ¬ (honestGw h j before).length = 1000 := by
          rw [hgw]
          intro hc
          exact hbig hc.ge
        have h0 : ¬ (honestGw h j before).length = 0 := by
          rw [hgw]; simp
        rcases hL : (honestGw h j before).getLast? with _ | last
        · rw [List.getLast?_eq_none_iff.mp hL] at hgw
          exact absurd hgw.symm (by simp)
        · rw [paginateLoop_stop_short _ _ _ _ _ _ _ hL hlen h0, hgw]

/-- Claim C2 (amended): served by a consistent gateway that never returns a
premature empty page, the paginator returns the entire history exactly — so
exactly N signatures, duplicate-free whenever the history is — and, at each
step, a full page of 1000 appends all of it and continues with the cursor
set to the oldest (last) signature of that page, while a non-empty page
shorter than 1000 appends all of it and stops the walk. (With premature
empty pages interleaved, the walk instead stops at the first empty page;
see the counterexample.) -/
theorem c2_honest_pagination :
    (∀ h : List String,
      get_all_signatures_for_id (honestGw h) (h.length / 1000 + 1) = some h)
  ∧ (∀ (gw : Nat → Option String → List String) (fuel k : Nat)
       (before : Option String) (acc : List String) (r : Nat),
      (gw k before).length = 1000 →
      paginateLoop gw (fuel + 1) k before acc r =
        paginateLoop gw fuel (k + 1) ((gw k before).getLast?)
          (acc ++ gw k before) 0)
  ∧ (∀ (gw : Nat → Option String → List String) (fuel k : Nat)
       (before : Option String) (acc : List String) (r : Nat),
      gw k before ≠ [] → ¬ (gw k before).length = 1000 →
      paginateLoop gw (fuel + 1) k before acc r = some (acc ++ gw k before)) := by
  refine ⟨?_, ?_, ?_⟩
  · intro h
    have hfuel : (h.drop (1000 * 0)).length < 1000 * (h.length / 1000 + 1) := by
      simp only [Nat.mul_zero, List.drop_zero]
      omega
    have := paginateLoop_honest h (h.length / 1000 + 1) 0 none [] hfuel
    rw [get_all_signatures_for_id, this]
    simp
  · intro gw fuel k before acc r hlen
    have hne : gw k before ≠ [] := by
      intro hc; rw [hc] at hlen; simp at hlen
    rcases hL : (gw k before).getLast? with _ | last
    · exact absurd (List.getLast?_eq_none_iff.mp hL) hne
    · rw [paginateLoop_step_full _ _ _ _ _ _ _ hL hlen]
  · intro gw fuel k before acc r hne hlen
    have h0 : ¬ (gw k before).length = 0 := by
      simpa [List.length_eq_zero] using hne
    rcases hL : (gw k before).getLast? with _ | last
    · exact absurd (List.getLast?_eq_none_iff.mp hL) hne
    · exact paginateLoop_stop_short _ _ _ _ _ _ _ hL hlen h0

/-- Claim C2 (amended), witnessed: a two-signature history is returned
whole; a full page of 1000 steps the loop exactly once, advancing the
cursor to that page's last signature; a short non-empty page stops the
walk with that page appended. -/
theorem c2_honest_pagination_witness :
    get_all_signatures_for_id (honestGw ["a", "b"])
      (["a", "b"].length / 1000 + 1) = some ["a", "b"] ∧
    paginateLoop gwFullPage 1 0 none [] 0 =
      paginateLoop gwFullPage 0 1 ((gwFullPage 0 none).getLast?)
        ([] ++ gwFullPage 0 none) 0 ∧
    paginateLoop gwPrematureEmpty 1 1 none [] 3 =
      some ([] ++ gwPrematureEmpty 1 none) :=
  ⟨c2_honest_pagination.1 ["a", "b"],
   c2_honest_pagination.2.1 gwFullPage 0 0 none [] 0
     (by rw [show gwFullPage 0 none = List.replicate 1000 "x" from rfl,
       List.length_replicate]),
   c2_honest_pagination.2.2 gwPrematureEmpty 0 1 none [] 3
     (by simp [gwPrematureEmpty]) (by simp [gwPrematureEmpty])⟩

/-- Claim C2, counterexample to gap tolerance: against the gateway whose
true history is the single signature "s" but whose first page comes back
prematurely empty, the walk returns zero signatures, not the claimed
exactly-N (here 1, namely ["s"], which any retry of the same cursor would
have recovered). -/
theorem c2_gap_counterexample :
    get_all_signatures_for_id gwPrematureEmpty 2 = some [] ∧
    (some [] : Option (List String)) ≠ some ["s"] :=
  ⟨rfl, by simp⟩

end Crawl
